import Mathlib

/-!
Shallow embedding of the `capitol` crate (src/lib.rs, src/constants.rs,
src/error.rs): a parser for United States Congress legislative citations
and a renderer of Congress.gov URLs.

Modelling conventions:
* Input bytes are `List Nat` (each entry one byte of the UTF-8 input; the
  concrete inputs of interest are ASCII, where `asciiBytes` gives exactly
  the UTF-8 bytes).
* `CURRENT_CONGRESS` in the source is a process-wide lazily computed
  `u64` derived from wall-clock time (constants.rs).  The embedding
  passes that value explicitly as a `cc : Nat` argument to the functions
  that read it; `currentCongress year` embeds the arithmetic
  `(CURRENT_YEAR - FIRST_CONGRESS) / 2 + 1` from constants.rs.
* Rust `u64`/`usize` parsing is embedded with an explicit `2 ^ 64`
  overflow bound.  The sign handling of Rust's integer parsing is
  omitted: every byte list reaching it is produced by the tokenizer and
  consists solely of ASCII digit bytes.  Likewise `String::from_utf8` is
  embedded as an all-ASCII check, which coincides with UTF-8 validity on
  tokenizer output (all tokenizer character classes are ASCII).
-/

/-- Bytes of an ASCII string (for ASCII this equals its UTF-8 bytes). -/
def asciiBytes (s : String) : List Nat :=
  s.data.map Char.toNat

/-- Rebuild a string from ASCII bytes (models `String::from_utf8` output). -/
def mkStr (bs : List Nat) : String :=
  String.mk (bs.map Char.ofNat)

/-- Scan class of the tokenizer's first phase: `ch > b'0' && ch <= b'9'`
(lib.rs line 179).  Note the strict lower bound: the byte `'0'` (48) is
excluded. -/
def isCongressDigitByte (b : Nat) : Bool :=
  48 < b && b ≤ 57

/-- Rust `u8::is_ascii_digit`: `'0'..='9'`. -/
def isDigitByte (b : Nat) : Bool :=
  48 ≤ b && b ≤ 57

/-- Rust `u8::is_ascii_alphabetic`: `'A'..='Z' | 'a'..='z'`. -/
def isAlphaByte (b : Nat) : Bool :=
  (65 ≤ b && b ≤ 90) || (97 ≤ b && b ≤ 122)

/-- The chamber-letter test of the tokenizer: `h`, `H`, `s` or `S`
(lib.rs line 185). -/
def isChamberByte (b : Nat) : Bool :=
  b == 104 || b == 72 || b == 115 || b == 83

/-- Rust `u8::to_ascii_lowercase`. -/
def byteToLower (b : Nat) : Nat :=
  if 65 ≤ b ∧ b ≤ 90 then b + 32 else b

/-- Rust `<[u8]>::to_ascii_lowercase`. -/
def toLowerBytes (bs : List Nat) : List Nat :=
  bs.map byteToLower

/-- The error enum of error.rs.  The payloads of `FromUtf8` and
`ParseInt` (the wrapped std error values) are elided; only the variant is
tracked. -/
inductive Error where
  | FromUtf8
  | ParseInt
  | InvalidBillVersion
  | MissingBillVersion
  | InvalidCongress
  | UnknownCongObjectType
deriving DecidableEq

deriving instance DecidableEq for Except

/-- Structure `CiteBytes` (lib.rs): the five positional segments produced by the
tokenizer.  `chamber` is `0` when no chamber letter is present, matching
`CiteBytes::default()`. -/
structure CiteBytes where
  congress : List Nat
  chamber : Nat
  object_type : List Nat
  number : List Nat
  ver : Option (List Nat)
deriving DecidableEq

/-- Models `Peekable::next_if`: consume the head iff it satisfies `p`, yielding
the consumed byte (or the `u8` default 0) and the remaining input. -/
def nextIf (p : Nat → Bool) : List Nat → Nat × List Nat
  | [] => (0, [])
  | b :: t => if p b then (b, t) else (0, b :: t)

/-- Embeds `Citation::tokenize` (lib.rs lines 167-213): five greedy scanning
phases; leftover trailing bytes are dropped. -/
def tokenize (input : List Nat) : CiteBytes :=
  let congress_bytes := input.takeWhile isCongressDigitByte
  let rest1 := input.dropWhile isCongressDigitByte
  let step := nextIf isChamberByte rest1
  let type_bytes := step.2.takeWhile isAlphaByte
  let rest2 := step.2.dropWhile isAlphaByte
  let number_bytes := rest2.takeWhile isDigitByte
  let rest3 := rest2.dropWhile isDigitByte
  let ver_bytes := rest3.takeWhile isAlphaByte
  { congress := congress_bytes
    chamber := step.1
    object_type := type_bytes
    number := number_bytes
    ver := if ver_bytes.isEmpty then none else some ver_bytes }

/-- Value of a big-endian decimal digit-byte string. -/
def digitsVal (bs : List Nat) : Nat :=
  bs.foldl (fun acc b => acc * 10 + (b - 48)) 0

/-- Exclusive upper bound of `u64` (and of `usize` on the 64-bit targets
the crate is built for). -/
def U64_LIMIT : Nat := 2 ^ 64

/-- Rust `str::parse::<u64>` on a tokenizer digit segment: fails on an empty
segment, a non-digit byte, or overflow past `u64::MAX`. -/
def rustParseU64 (bs : List Nat) : Except Error Nat :=
  if bs.isEmpty then .error .ParseInt
  else if bs.all isDigitByte then
    if digitsVal bs < U64_LIMIT then .ok (digitsVal bs) else .error .ParseInt
  else .error .ParseInt

/-- Rust `String::from_utf8` on tokenizer output: all segments are ASCII
classes, so UTF-8 validity is the all-ASCII check. -/
def rustFromUtf8 (bs : List Nat) : Except Error (List Nat) :=
  if bs.all (fun b => b < 128) then .ok bs else .error .FromUtf8

/-- The constant `CURRENT_CONGRESS` as a function of the wall-clock year
(constants.rs lines 4-14): `(CURRENT_YEAR - FIRST_CONGRESS) / 2 + 1`. -/
def currentCongress (year : Nat) : Nat :=
  (year - 1789) / 2 + 1

/-- The constant `BASE_URL` (constants.rs line 15; asserted by the URL tests in
lib.rs). -/
def BASE_URL : String := "https://www.congress.gov"

/-- The constant `BILL_VERSIONS` (constants.rs lines 17-22): the 37 lowercase version
codes, as byte strings. -/
def BILL_VERSIONS : List (List Nat) :=
  [asciiBytes "as", asciiBytes "ash", asciiBytes "ath", asciiBytes "ats",
   asciiBytes "cdh", asciiBytes "cds", asciiBytes "cph", asciiBytes "cps",
   asciiBytes "eah", asciiBytes "eas", asciiBytes "eh", asciiBytes "enr",
   asciiBytes "es", asciiBytes "fph", asciiBytes "fps", asciiBytes "hds",
   asciiBytes "ih", asciiBytes "iph", asciiBytes "ips", asciiBytes "is",
   asciiBytes "lth", asciiBytes "lts", asciiBytes "pap", asciiBytes "pcs",
   asciiBytes "pp", asciiBytes "rch", asciiBytes "rcs", asciiBytes "rds",
   asciiBytes "rfh", asciiBytes "rfs", asciiBytes "rh", asciiBytes "rhuc",
   asciiBytes "rih", asciiBytes "rs", asciiBytes "rth", asciiBytes "rts",
   asciiBytes "sc"]

/-- Newtype `Congress` (lib.rs line 37). -/
structure Congress where
  val : Nat
deriving DecidableEq

/-- Embeds `Congress::parse` (lib.rs lines 40-52); `cc` is the value of the
`CURRENT_CONGRESS` global at evaluation time. -/
def Congress.parse (cc : Nat) (input : List Nat) : Except Error Congress :=
  match rustFromUtf8 input with
  | .error e => .error e
  | .ok s =>
    match rustParseU64 s with
    | .error e => .error e
    | .ok congress =>
      if congress ≤ cc then .ok ⟨congress⟩ else .error .InvalidCongress

/-- Little-endian decimal digit bytes of `n`; `fuel` bounds the recursion
depth (any `fuel ≥ n` gives the digits of `n`, least significant first;
`n = 0` yields `[]`). -/
def digitsRevFuel (fuel n : Nat) : List Nat :=
  match fuel, n with
  | _, 0 => []
  | 0, _ => []
  | fuel + 1, n => (48 + n % 10) :: digitsRevFuel fuel (n / 10)

/-- Decimal representation of `n` as ASCII digit bytes (models the
`Display`/`format!` rendering of unsigned integers). -/
def reprBytes (n : Nat) : List Nat :=
  if n = 0 then [48] else (digitsRevFuel n n).reverse

/-- Decimal representation of `n` as a string (`u64`/`usize` `Display`). -/
def natStr (n : Nat) : String :=
  mkStr (reprBytes n)

/-- Rust `str::ends_with(char)`: the string's last character equals `c`. -/
def strEndsWithChar (s : String) (c : Char) : Bool :=
  decide (s.data.getLast? = some c)

/-- Embeds `Congress::as_ordinal` (lib.rs lines 54-66): suffix chosen by the
last character of the decimal rendering. -/
def Congress.as_ordinal (c : Congress) : String :=
  let ordinal := natStr c.val
  if strEndsWithChar ordinal '1' then ordinal ++ "st"
  else if strEndsWithChar ordinal '2' then ordinal ++ "nd"
  else if strEndsWithChar ordinal '3' then ordinal ++ "rd"
  else ordinal ++ "th"

/-- Enum `Chamber` (lib.rs lines 75-79). -/
inductive Chamber where
  | House
  | Senate
deriving DecidableEq

/-- Embeds `Chamber::parse` (lib.rs lines 94-102):
`input.eq_ignore_ascii_case(&b'h')` picks House, anything else Senate. -/
def Chamber.parse (input : Nat) : Chamber :=
  if byteToLower input = byteToLower 104 then .House else .Senate

/-- Rendering `Display for Chamber` (lib.rs lines 81-92). -/
def Chamber.display : Chamber → String
  | .House => "house"
  | .Senate => "senate"

/-- Enum `CongObjectType` (lib.rs lines 104-116). -/
inductive CongObjectType where
  | SenateBill
  | HouseBill
  | SenateResolution
  | HouseResolution
  | SenateConcurrentResolution
  | HouseConcurrentResolution
  | SenateJointResolution
  | HouseJointResolution
  | HouseReport
  | SenateReport
deriving DecidableEq

/-- Embeds `CongObjectType::parse` (lib.rs lines 118-134): the match arms on the
lowercased tag with chamber guards, in source order. -/
def CongObjectType.parse (input : List Nat) (chamber : Chamber) :
    Except Error CongObjectType :=
  let t := toLowerBytes input
  if (t = asciiBytes "" ∨ t = asciiBytes "r") ∧ chamber = .House then
    .ok .HouseBill
  else if t = asciiBytes "" ∧ chamber = .Senate then .ok .SenateBill
  else if t = asciiBytes "res" ∧ chamber = .House then .ok .HouseResolution
  else if t = asciiBytes "res" ∧ chamber = .Senate then .ok .SenateResolution
  else if t = asciiBytes "conres" ∧ chamber = .House then
    .ok .HouseConcurrentResolution
  else if t = asciiBytes "conres" ∧ chamber = .Senate then
    .ok .SenateConcurrentResolution
  else if t = asciiBytes "jres" ∧ chamber = .House then
    .ok .HouseJointResolution
  else if t = asciiBytes "jres" ∧ chamber = .Senate then
    .ok .SenateJointResolution
  else if t = asciiBytes "rpt" ∧ chamber = .House then .ok .HouseReport
  else if t = asciiBytes "rpt" ∧ chamber = .Senate then .ok .SenateReport
  else .error .UnknownCongObjectType

/-- Rendering `Display for CongObjectType` (lib.rs lines 136-151). -/
def CongObjectType.display : CongObjectType → String
  | .HouseBill | .SenateBill => "bill"
  | .HouseResolution | .SenateResolution => "resolution"
  | .HouseConcurrentResolution | .SenateConcurrentResolution =>
      "concurrent-resolution"
  | .HouseJointResolution | .SenateJointResolution => "joint-resolution"
  | .HouseReport | .SenateReport => "report"

/-- Newtype `Version` (lib.rs line 25). -/
structure Version where
  text : String
deriving DecidableEq

/-- Structure `Citation` (lib.rs lines 157-164). -/
structure Citation where
  congress : Congress
  chamber : Chamber
  object_type : CongObjectType
  number : Nat
  ver : Option Version
deriving DecidableEq

/-- The document-number step of `Citation::parse` (lib.rs line 239):
`String::from_utf8(bytes.number)?.parse::<usize>()?`. -/
def parseNumber (bs : List Nat) : Except Error Nat :=
  match rustFromUtf8 bs with
  | .error e => .error e
  | .ok s => rustParseU64 s

/-- The version step of `Citation::parse` (lib.rs lines 240-249):
membership of the raw bytes in `BILL_VERSIONS` (no lowercasing), then
`String::from_utf8`. -/
def parseVer : Option (List Nat) → Except Error (Option Version)
  | some v =>
    if v ∈ BILL_VERSIONS then
      match rustFromUtf8 v with
      | .error e => .error e
      | .ok s => .ok (some ⟨mkStr s⟩)
    else .error .InvalidBillVersion
  | none => .ok none

/-- The validator/builder chain of `Citation::parse` (lib.rs lines
234-258) applied to already-tokenized segments: congress, chamber,
object type, number, version, each `?` short-circuiting. -/
def buildCitation (cc : Nat) (bytes : CiteBytes) : Except Error Citation :=
  match Congress.parse cc bytes.congress with
  | .error e => .error e
  | .ok congress =>
    let chamber := Chamber.parse bytes.chamber
    match CongObjectType.parse bytes.object_type chamber with
    | .error e => .error e
    | .ok object_type =>
      match parseNumber bytes.number with
      | .error e => .error e
      | .ok number =>
        match parseVer bytes.ver with
        | .error e => .error e
        | .ok ver =>
          .ok { congress := congress, chamber := chamber,
                object_type := object_type, number := number, ver := ver }

/-- Embeds `Citation::parse` (lib.rs lines 234-258): tokenize, then build. -/
def Citation.parse (cc : Nat) (input : List Nat) : Except Error Citation :=
  buildCitation cc (tokenize input)

/-- Embeds `Citation::to_url` (lib.rs lines 269-288). -/
def Citation.to_url (c : Citation) : String :=
  let collection : String :=
    match c.object_type with
    | .HouseReport | .SenateReport => "congressional-report"
    | _ => "bill"
  let base :=
    BASE_URL ++ "/" ++ collection ++ "/" ++ c.congress.as_ordinal ++
      "-congress/" ++ c.chamber.display ++ "-" ++ c.object_type.display ++
      "/" ++ natStr c.number
  match c.ver with
  | some v => base ++ "/text/" ++ v.text
  | none => base

/-- Spec-side definition (§4.1 step 1 as the claim reads it): the maximal
leading run of ASCII decimal digits `'0'..'9'`. -/
def leadingDigitRun (input : List Nat) : List Nat :=
  input.takeWhile isDigitByte

/-- Spec-side definition (§6): the fixed object-type table of recognized
(lowercased tag, chamber) pairs. -/
def objectTypeTable (t : List Nat) (chamber : Chamber) : Prop :=
  (chamber = .House ∧ (t = asciiBytes "" ∨ t = asciiBytes "r")) ∨
  (chamber = .Senate ∧ t = asciiBytes "") ∨
  t = asciiBytes "res" ∨ t = asciiBytes "conres" ∨
  t = asciiBytes "jres" ∨ t = asciiBytes "rpt"

/-- Spec-side definition (§4.3 step 2): the ordinal suffix selected by
the last decimal digit. -/
def ordinalSuffix (d : Nat) : String :=
  if d = 1 then "st" else if d = 2 then "nd" else if d = 3 then "rd"
  else "th"

theorem takeWhile_append_all {p : Nat → Bool} {xs : List Nat} (ys : List Nat)
    (h : ∀ x ∈ xs, p x = true) :
    (xs ++ ys).takeWhile p = xs ++ ys.takeWhile p := by
  induction xs with
  | nil => simp
  | cons a t ih =>
    simp only [List.cons_append, List.takeWhile_cons, h a (by simp)]
    simp [ih (fun x hx => h x (by simp [hx]))]

theorem dropWhile_append_all {p : Nat → Bool} {xs : List Nat} (ys : List Nat)
    (h : ∀ x ∈ xs, p x = true) :
    (xs ++ ys).dropWhile p = ys.dropWhile p := by
  induction xs with
  | nil => simp
  | cons a t ih =>
    simp only [List.cons_append, List.dropWhile_cons, h a (by simp)]
    simp [ih (fun x hx => h x (by simp [hx]))]

theorem head?_dropWhile_not {p : Nat → Bool} (l : List Nat) :
    ∀ b, (l.dropWhile p).head? = some b → p b = false := by
  induction l with
  | nil => intro b hb; simp [List.dropWhile] at hb
  | cons a t ih =>
    intro b hb
    by_cases hpa : p a = true
    · exact ih b (by simpa [List.dropWhile_cons, hpa] using hb)
    · have hfa : p a = false := by simpa using hpa
      simp only [List.dropWhile_cons, hfa] at hb
      simp only [Bool.false_eq_true, if_false, List.head?_cons,
        Option.some.injEq] at hb
      subst hb
      exact hfa

theorem digitsRevFuel_succ (f m : Nat) :
    digitsRevFuel (f + 1) (m + 1) = (48 + (m + 1) % 10) :: digitsRevFuel f ((m + 1) / 10) := rfl

theorem digitsVal_append_single (xs : List Nat) (b : Nat) :
    digitsVal (xs ++ [b]) = digitsVal xs * 10 + (b - 48) := by
  simp [digitsVal, List.foldl_append]

theorem digitsVal_digitsRevFuel_reverse (fuel : Nat) :
    ∀ n, n ≤ fuel → digitsVal (digitsRevFuel fuel n).reverse = n := by
  induction fuel with
  | zero =>
    intro n hn
    interval_cases n
    simp [digitsRevFuel, digitsVal]
  | succ f ih =>
    intro n hn
    match n with
    | 0 => simp [digitsRevFuel, digitsVal]
    | m + 1 =>
      rw [digitsRevFuel_succ, List.reverse_cons, digitsVal_append_single,
        ih ((m + 1) / 10) (by omega)]
      omega

theorem digitsRevFuel_digits (fuel : Nat) :
    ∀ n, ∀ b ∈ digitsRevFuel fuel n, 48 ≤ b ∧ b ≤ 57 := by
  induction fuel with
  | zero =>
    intro n b hb
    match n with
    | 0 => simp [digitsRevFuel] at hb
    | m + 1 => simp [digitsRevFuel] at hb
  | succ f ih =>
    intro n b hb
    match n with
    | 0 => simp [digitsRevFuel] at hb
    | m + 1 =>
      rw [digitsRevFuel_succ] at hb
      rcases List.mem_cons.mp hb with h | h
      · subst h; omega
      · exact ih _ b h

theorem reprBytes_digits (n : Nat) : ∀ b ∈ reprBytes n, 48 ≤ b ∧ b ≤ 57 := by
  intro b hb
  unfold reprBytes at hb
  by_cases hn : n = 0
  · simp [hn] at hb; omega
  · rw [if_neg hn] at hb
    exact digitsRevFuel_digits n n b (List.mem_reverse.mp hb)

theorem reprBytes_ne_nil (n : Nat) : reprBytes n ≠ [] := by
  unfold reprBytes
  by_cases hn : n = 0
  · simp [hn]
  · rw [if_neg hn]
    match n, hn with
    | m + 1, _ => simp [digitsRevFuel_succ]

theorem digitsVal_reprBytes (n : Nat) : digitsVal (reprBytes n) = n := by
  unfold reprBytes
  by_cases hn : n = 0
  · simp [hn, digitsVal]
  · rw [if_neg hn]
    exact digitsVal_digitsRevFuel_reverse n n (Nat.le_refl n)

theorem getLast?_reprBytes (n : Nat) :
    (reprBytes n).getLast? = some (48 + n % 10) := by
  unfold reprBytes
  by_cases hn : n = 0
  · simp [hn]
  · rw [if_neg hn]
    match n, hn with
    | m + 1, _ =>
      rw [List.getLast?_reverse, digitsRevFuel_succ]
      rfl

theorem build_congress_error {cc : Nat} {bytes : CiteBytes} {e : Error}
    (h : Congress.parse cc bytes.congress = .error e) :
    buildCitation cc bytes = .error e := by
  unfold buildCitation
  rw [h]

theorem build_object_type_error {cc : Nat} {bytes : CiteBytes} {cg : Congress} {e : Error}
    (h1 : Congress.parse cc bytes.congress = .ok cg)
    (h2 : CongObjectType.parse bytes.object_type (Chamber.parse bytes.chamber) = .error e) :
    buildCitation cc bytes = .error e := by
  unfold buildCitation
  rw [h1]
  simp only [h2]

theorem build_number_error {cc : Nat} {bytes : CiteBytes} {cg : Congress}
    {ot : CongObjectType} {e : Error}
    (h1 : Congress.parse cc bytes.congress = .ok cg)
    (h2 : CongObjectType.parse bytes.object_type (Chamber.parse bytes.chamber) = .ok ot)
    (h3 : parseNumber bytes.number = .error e) :
    buildCitation cc bytes = .error e := by
  unfold buildCitation
  rw [h1]
  simp only [h2, h3]

theorem build_ver_error {cc : Nat} {bytes : CiteBytes} {cg : Congress}
    {ot : CongObjectType} {n : Nat} {e : Error}
    (h1 : Congress.parse cc bytes.congress = .ok cg)
    (h2 : CongObjectType.parse bytes.object_type (Chamber.parse bytes.chamber) = .ok ot)
    (h3 : parseNumber bytes.number = .ok n)
    (h4 : parseVer bytes.ver = .error e) :
    buildCitation cc bytes = .error e := by
  unfold buildCitation
  rw [h1]
  simp only [h2, h3, h4]

theorem build_all_ok {cc : Nat} {bytes : CiteBytes} {cg : Congress}
    {ot : CongObjectType} {n : Nat} {v : Option Version}
    (h1 : Congress.parse cc bytes.congress = .ok cg)
    (h2 : CongObjectType.parse bytes.object_type (Chamber.parse bytes.chamber) = .ok ot)
    (h3 : parseNumber bytes.number = .ok n)
    (h4 : parseVer bytes.ver = .ok v) :
    buildCitation cc bytes =
      .ok ⟨cg, Chamber.parse bytes.chamber, ot, n, v⟩ := by
  unfold buildCitation
  rw [h1]
  simp only [h2, h3, h4]

theorem congress_parse_of_ok {cc v : Nat} {bs : List Nat}
    (h1 : rustFromUtf8 bs = .ok bs) (h2 : rustParseU64 bs = .ok v) :
    Congress.parse cc bs =
      if v ≤ cc then .ok ⟨v⟩ else .error .InvalidCongress := by
  simp only [Congress.parse, h1, h2]

theorem billVersions_ascii :
    ∀ v ∈ BILL_VERSIONS, v.all (fun b => decide (b < 128)) = true := by
  decide

theorem parseVer_mem {v : List Nat} (hv : v ∈ BILL_VERSIONS) :
    parseVer (some v) = .ok (some ⟨mkStr v⟩) := by
  simp only [parseVer]
  rw [if_pos hv]
  simp only [rustFromUtf8, billVersions_ascii v hv, if_true]

/-- Claim C1 (amended): the tokenizer's first phase consumes the maximal
leading run of bytes strictly between `'0'` and `'9'` (its scan predicate
is `ch > b'0' && ch <= b'9'`, so the digit `'0'` stops the run):
`congress` is a prefix of the input consisting solely of bytes in
`'1'..'9'`, and the byte following it (if any) is outside that class. -/
theorem tokenize_congress_nonzero_digit_run (input : List Nat) :
    ∃ rest, input = (tokenize input).congress ++ rest ∧
      (∀ b ∈ (tokenize input).congress, 48 < b ∧ b ≤ 57) ∧
      (∀ b, rest.head? = some b → ¬(48 < b ∧ b ≤ 57)) := by
  have hc : (tokenize input).congress = input.takeWhile isCongressDigitByte := rfl
  refine ⟨input.dropWhile isCongressDigitByte, ?_, ?_, ?_⟩
  · rw [hc, List.takeWhile_append_dropWhile]
  · intro b hb
    rw [hc] at hb
    have := List.mem_takeWhile_imp hb
    simpa [isCongressDigitByte] using this
  · intro b hb
    have := head?_dropWhile_not (p := isCongressDigitByte) input b hb
    simpa [isCongressDigitByte] using this

/-- Witness for C1 at the concrete input `"108hr1"`. -/
theorem tokenize_congress_nonzero_digit_run_witness :
    ∃ rest, asciiBytes "108hr1" = (tokenize (asciiBytes "108hr1")).congress ++ rest ∧
      (∀ b ∈ (tokenize (asciiBytes "108hr1")).congress, 48 < b ∧ b ≤ 57) ∧
      (∀ b, rest.head? = some b → ¬(48 < b ∧ b ≤ 57)) :=
  tokenize_congress_nonzero_digit_run (asciiBytes "108hr1")

/-- Counterexample to C1 as stated: on `"108hr1"` the maximal leading run
of decimal digits is `"108"`, but the tokenizer's congress segment is just
`"1"` — the digit `'0'` stopped the scan. -/
theorem tokenize_congress_zero_digit_counterexample :
    leadingDigitRun (asciiBytes "108hr1") = asciiBytes "108" ∧
    (tokenize (asciiBytes "108hr1")).congress = asciiBytes "1" ∧
    (tokenize (asciiBytes "108hr1")).congress ≠ leadingDigitRun (asciiBytes "108hr1") := by
  decide

/-- Claim C2 (amended): `parse("0hr1")` fails for every current-congress
value (the congress scan stops at `'0'`, leaving an empty congress segment
that fails integer parsing), but `parse("1hr0")` succeeds with document
number 0 — the code does not reject a zero document number. -/
theorem parse_zero_fields :
    (∀ cc : Nat, Citation.parse cc (asciiBytes "0hr1") = .error .ParseInt) ∧
    (∀ cc : Nat, 1 ≤ cc →
      Citation.parse cc (asciiBytes "1hr0") =
        .ok ⟨⟨1⟩, .House, .HouseBill, 0, none⟩) := by
  constructor
  · intro cc
    show buildCitation cc (tokenize (asciiBytes "0hr1")) = .error .ParseInt
    exact build_congress_error rfl
  · intro cc h
    show buildCitation cc (tokenize (asciiBytes "1hr0")) = _
    have ht : tokenize (asciiBytes "1hr0") = ⟨[49], 104, [114], [48], none⟩ := by
      decide
    rw [ht]
    have h1 : Congress.parse cc [49] = .ok ⟨1⟩ := by
      rw [congress_parse_of_ok (v := 1) (by decide) (by decide), if_pos h]
    exact build_all_ok h1 (by decide) (by decide) (by decide)

/-- Witness for C2 at current congress 119. -/
theorem parse_zero_fields_witness :
    Citation.parse 119 (asciiBytes "0hr1") = .error .ParseInt ∧
    Citation.parse 119 (asciiBytes "1hr0") =
      .ok ⟨⟨1⟩, .House, .HouseBill, 0, none⟩ :=
  ⟨parse_zero_fields.1 119, parse_zero_fields.2 119 (by norm_num)⟩

/-- Counterexample to C2 as stated: `parse("1hr0")` does not fail; it
succeeds with number 0 (shown at current congress 119). -/
theorem parse_zero_number_counterexample :
    Citation.parse 119 (asciiBytes "1hr0") =
      .ok ⟨⟨1⟩, .House, .HouseBill, 0, none⟩ := by
  decide

/-- Claim C3 (amended): version matching is case-SENSITIVE: a non-empty
trailing tag is accepted iff its exact bytes are one of the 37 lowercase
vocabulary codes, so `"118hr8070ih"` parses with version `"ih"` while the
uppercase `"118hr8070IH"` fails with the invalid-bill-version error. -/
theorem version_case_sensitive :
    (∀ cc : Nat, 118 ≤ cc →
      Citation.parse cc (asciiBytes "118hr8070ih") =
        .ok ⟨⟨118⟩, .House, .HouseBill, 8070, some ⟨"ih"⟩⟩ ∧
      Citation.parse cc (asciiBytes "118hr8070IH") =
        .error .InvalidBillVersion) ∧
    (∀ v : List Nat, (∃ o, parseVer (some v) = .ok o) ↔ v ∈ BILL_VERSIONS) := by
  constructor
  · intro cc h
    have h1 : Congress.parse cc [49, 49, 56] = .ok ⟨118⟩ := by
      rw [congress_parse_of_ok (v := 118) (by decide) (by decide), if_pos h]
    constructor
    · show buildCitation cc (tokenize (asciiBytes "118hr8070ih")) = _
      have ht : tokenize (asciiBytes "118hr8070ih") =
          ⟨[49, 49, 56], 104, [114], [56, 48, 55, 48], some [105, 104]⟩ := by
        decide
      rw [ht]
      exact build_all_ok h1 (by decide) (by decide) (by decide)
    · show buildCitation cc (tokenize (asciiBytes "118hr8070IH")) = _
      have ht : tokenize (asciiBytes "118hr8070IH") =
          ⟨[49, 49, 56], 104, [114], [56, 48, 55, 48], some [73, 72]⟩ := by
        decide
      rw [ht]
      have h2 : CongObjectType.parse [114] (Chamber.parse 104) =
          .ok .HouseBill := by decide
      have h3 : parseNumber [56, 48, 55, 48] = .ok 8070 := by decide
      exact build_ver_error h1 h2 h3 (by decide)
  · intro v
    constructor
    · rintro ⟨o, ho⟩
      by_contra hmem
      simp only [parseVer, if_neg hmem] at ho
      exact Except.noConfusion ho
    · intro hv
      exact ⟨some ⟨mkStr v⟩, parseVer_mem hv⟩

/-- Witness for C3 at current congress 119 and tag `"ih"`. -/
theorem version_case_sensitive_witness :
    (Citation.parse 119 (asciiBytes "118hr8070ih") =
        .ok ⟨⟨118⟩, .House, .HouseBill, 8070, some ⟨"ih"⟩⟩ ∧
      Citation.parse 119 (asciiBytes "118hr8070IH") =
        .error .InvalidBillVersion) ∧
    ((∃ o, parseVer (some (asciiBytes "ih")) = .ok o) ↔
      asciiBytes "ih" ∈ BILL_VERSIONS) :=
  ⟨version_case_sensitive.1 119 (by norm_num),
   version_case_sensitive.2 (asciiBytes "ih")⟩

/-- Counterexample to C3 as stated: `"118hr8070IH"` does not parse — the
validator never lowercases the version segment, and `"IH"` is not a
member of `BILL_VERSIONS` even though its lowercasing is. -/
theorem version_uppercase_counterexample :
    Citation.parse 119 (asciiBytes "118hr8070IH") = .error .InvalidBillVersion ∧
    asciiBytes "IH" ∉ BILL_VERSIONS ∧
    toLowerBytes (asciiBytes "IH") ∈ BILL_VERSIONS := by
  decide

/-- Tokenization of `"{future}hr51"` when the digits of `future` contain
no `'0'`: the whole numeral becomes the congress segment. -/
theorem tokenize_repr_hr51 {n : Nat} (h0 : ∀ b ∈ reprBytes n, b ≠ 48) :
    tokenize (reprBytes n ++ asciiBytes "hr51") =
      ⟨reprBytes n, 104, [114], [53, 49], none⟩ := by
  have hall : ∀ b ∈ reprBytes n, isCongressDigitByte b = true := by
    intro b hb
    have h1 := reprBytes_digits n b hb
    have h2 := h0 b hb
    simp only [isCongressDigitByte, Bool.and_eq_true, decide_eq_true_eq]
    omega
  have htw : (reprBytes n ++ asciiBytes "hr51").takeWhile isCongressDigitByte
      = reprBytes n := by
    rw [takeWhile_append_all _ hall,
      show (asciiBytes "hr51").takeWhile isCongressDigitByte = [] from by decide,
      List.append_nil]
  have hdw : (reprBytes n ++ asciiBytes "hr51").dropWhile isCongressDigitByte
      = asciiBytes "hr51" := by
    rw [dropWhile_append_all _ hall]
    decide
  simp only [tokenize, htw, hdw]
  rfl

/-- Parsing the numeral of `cc + 1` as a congress under current congress
`cc` yields the invalid-congress error. -/
theorem congress_parse_repr_succ {cc : Nat} (hlt : cc + 1 < U64_LIMIT) :
    Congress.parse cc (reprBytes (cc + 1)) = .error .InvalidCongress := by
  have hd := reprBytes_digits (cc + 1)
  have hne : ¬((reprBytes (cc + 1)).isEmpty = true) := by
    simpa [List.isEmpty_iff] using reprBytes_ne_nil (cc + 1)
  have hutf : rustFromUtf8 (reprBytes (cc + 1)) = .ok (reprBytes (cc + 1)) := by
    unfold rustFromUtf8
    rw [if_pos]
    rw [List.all_eq_true]
    intro b hb
    have := hd b hb
    simp only [decide_eq_true_eq]
    omega
  have hall : (reprBytes (cc + 1)).all isDigitByte = true := by
    rw [List.all_eq_true]
    intro b hb
    have := hd b hb
    simp only [isDigitByte, Bool.and_eq_true, decide_eq_true_eq]
    omega
  have hparse : rustParseU64 (reprBytes (cc + 1)) = .ok (cc + 1) := by
    unfold rustParseU64
    rw [if_neg hne, if_pos hall, digitsVal_reprBytes, if_pos hlt]
  simp only [Congress.parse, hutf, hparse]
  rw [if_neg (by omega)]

/-- Claim C4 (amended): for `future = cc + 1` (with `cc` the current
congress, `future` within `u64` range), `parse("{future}hr51")` fails
with the congress-out-of-range error provided the decimal digits of
`future` contain no `'0'` byte. -/
theorem future_congress_rejection (cc : Nat) (hlt : cc + 1 < U64_LIMIT)
    (h0 : ∀ b ∈ reprBytes (cc + 1), b ≠ 48) :
    Citation.parse cc (reprBytes (cc + 1) ++ asciiBytes "hr51") =
      .error .InvalidCongress := by
  show buildCitation cc (tokenize (reprBytes (cc + 1) ++ asciiBytes "hr51")) = _
  rw [tokenize_repr_hr51 h0]
  exact build_congress_error (congress_parse_repr_succ hlt)

/-- Witness for C4 at current congress 118 (future 119). -/
theorem future_congress_rejection_witness :
    118 + 1 < U64_LIMIT ∧ (∀ b ∈ reprBytes (118 + 1), b ≠ 48) ∧
    Citation.parse 118 (reprBytes (118 + 1) ++ asciiBytes "hr51") =
      .error .InvalidCongress :=
  ⟨by decide, by decide, future_congress_rejection 118 (by decide) (by decide)⟩

/-- Counterexample to C4 as stated: at wall-clock year 2026 the current
congress is 119 and `future = 120` contains a `'0'` digit, so the
tokenizer truncates the congress run at the `'0'` and
`parse("120hr51")` fails with the invalid-bill-version error, not the
congress-out-of-range error. -/
theorem future_congress_counterexample :
    currentCongress 2026 = 119 ∧
    reprBytes (currentCongress 2026 + 1) ++ asciiBytes "hr51" =
      asciiBytes "120hr51" ∧
    Citation.parse (currentCongress 2026) (asciiBytes "120hr51") =
      .error .InvalidBillVersion ∧
    Error.InvalidBillVersion ≠ Error.InvalidCongress := by
  decide

set_option maxHeartbeats 1000000 in
/-- Claim C5: `parse("1sr1")` fails with the unknown-object-type error
(tokenization succeeds; the House-only bill tag `"r"` is rejected for the
Senate chamber), and for every (tag, chamber) pair whose lowercased tag is
outside the fixed table, object-type construction fails with that error. -/
theorem unknown_object_type_rejection :
    (∀ cc : Nat, 1 ≤ cc →
      Citation.parse cc (asciiBytes "1sr1") = .error .UnknownCongObjectType) ∧
    (∀ (tag : List Nat) (chamber : Chamber),
      ¬ objectTypeTable (toLowerBytes tag) chamber →
      CongObjectType.parse tag chamber = .error .UnknownCongObjectType) := by
  constructor
  · intro cc h
    show buildCitation cc (tokenize (asciiBytes "1sr1")) = _
    have ht : tokenize (asciiBytes "1sr1") = ⟨[49], 115, [114], [49], none⟩ := by
      decide
    rw [ht]
    have h1 : Congress.parse cc [49] = .ok ⟨1⟩ := by
      rw [congress_parse_of_ok (v := 1) (by decide) (by decide), if_pos h]
    exact build_object_type_error h1 (by decide)
  · intro tag chamber h
    unfold objectTypeTable at h
    simp only [CongObjectType.parse]
    split_ifs with h1 h2 h3 h4 h5 h6 h7 h8 h9 h10
    · exact absurd (Or.inl ⟨h1.2, h1.1⟩) h
    · exact absurd (Or.inr (Or.inl ⟨h2.2, h2.1⟩)) h
    · exact absurd (Or.inr (Or.inr (Or.inl h3.1))) h
    · exact absurd (Or.inr (Or.inr (Or.inl h4.1))) h
    · exact absurd (Or.inr (Or.inr (Or.inr (Or.inl h5.1)))) h
    · exact absurd (Or.inr (Or.inr (Or.inr (Or.inl h6.1)))) h
    · exact absurd (Or.inr (Or.inr (Or.inr (Or.inr (Or.inl h7.1))))) h
    · exact absurd (Or.inr (Or.inr (Or.inr (Or.inr (Or.inl h8.1))))) h
    · exact absurd (Or.inr (Or.inr (Or.inr (Or.inr (Or.inr h9.1))))) h
    · exact absurd (Or.inr (Or.inr (Or.inr (Or.inr (Or.inr h10.1))))) h
    · rfl

/-- Witness for C5 at current congress 119 and at tag `"r"` with Senate. -/
theorem unknown_object_type_rejection_witness :
    Citation.parse 119 (asciiBytes "1sr1") = .error .UnknownCongObjectType ∧
    CongObjectType.parse (asciiBytes "r") .Senate =
      .error .UnknownCongObjectType :=
  ⟨unknown_object_type_rejection.1 119 (by norm_num),
   unknown_object_type_rejection.2 (asciiBytes "r") .Senate
     (by unfold objectTypeTable; decide)⟩

/-- Claim C6: `parse("118hr8070")` yields congress 118, House, HouseBill,
number 8070, no version, with the expected bill URL; `parse("118hrpt529")`
yields HouseReport 529 with the expected congressional-report URL; and the
base URL is the fixed constant. -/
theorem end_to_end_examples (cc : Nat) (h : 118 ≤ cc) :
    Citation.parse cc (asciiBytes "118hr8070") =
      .ok ⟨⟨118⟩, .House, .HouseBill, 8070, none⟩ ∧
    Citation.to_url ⟨⟨118⟩, .House, .HouseBill, 8070, none⟩ =
      "https://www.congress.gov/bill/118th-congress/house-bill/8070" ∧
    Citation.parse cc (asciiBytes "118hrpt529") =
      .ok ⟨⟨118⟩, .House, .HouseReport, 529, none⟩ ∧
    Citation.to_url ⟨⟨118⟩, .House, .HouseReport, 529, none⟩ =
      "https://www.congress.gov/congressional-report/118th-congress/house-report/529" ∧
    BASE_URL = "https://www.congress.gov" := by
  have h1 : Congress.parse cc [49, 49, 56] = .ok ⟨118⟩ := by
    rw [congress_parse_of_ok (v := 118) (by decide) (by decide), if_pos h]
  refine ⟨?_, by decide, ?_, by decide, rfl⟩
  · show buildCitation cc (tokenize (asciiBytes "118hr8070")) = _
    have ht : tokenize (asciiBytes "118hr8070") =
        ⟨[49, 49, 56], 104, [114], [56, 48, 55, 48], none⟩ := by decide
    rw [ht]
    exact build_all_ok h1 (by decide) (by decide) (by decide)
  · show buildCitation cc (tokenize (asciiBytes "118hrpt529")) = _
    have ht : tokenize (asciiBytes "118hrpt529") =
        ⟨[49, 49, 56], 104, [114, 112, 116], [53, 50, 57], none⟩ := by decide
    rw [ht]
    exact build_all_ok h1 (by decide) (by decide) (by decide)

/-- Witness for C6 at current congress 119. -/
theorem end_to_end_examples_witness :
    Citation.parse 119 (asciiBytes "118hr8070") =
      .ok ⟨⟨118⟩, .House, .HouseBill, 8070, none⟩ ∧
    Citation.to_url ⟨⟨118⟩, .House, .HouseBill, 8070, none⟩ =
      "https://www.congress.gov/bill/118th-congress/house-bill/8070" ∧
    Citation.parse 119 (asciiBytes "118hrpt529") =
      .ok ⟨⟨118⟩, .House, .HouseReport, 529, none⟩ ∧
    Citation.to_url ⟨⟨118⟩, .House, .HouseReport, 529, none⟩ =
      "https://www.congress.gov/congressional-report/118th-congress/house-report/529" ∧
    BASE_URL = "https://www.congress.gov" :=
  end_to_end_examples 119 (by norm_num)

/-- Claim C8: validation is strictly sequential and fails fast: whichever
of the congress, object-type, number and version steps fails first
determines the single returned error (chamber conversion is total), and an
input violating both the congress bound and the object-type table, such as
`"9999sr1"`, reports the congress error. -/
theorem fail_fast_sequential :
    (∀ (cc : Nat) (bytes : CiteBytes) (e : Error),
      Congress.parse cc bytes.congress = .error e →
      buildCitation cc bytes = .error e) ∧
    (∀ (cc : Nat) (bytes : CiteBytes) (cg : Congress) (e : Error),
      Congress.parse cc bytes.congress = .ok cg →
      CongObjectType.parse bytes.object_type (Chamber.parse bytes.chamber) =
        .error e →
      buildCitation cc bytes = .error e) ∧
    (∀ (cc : Nat) (bytes : CiteBytes) (cg : Congress) (ot : CongObjectType)
      (e : Error),
      Congress.parse cc bytes.congress = .ok cg →
      CongObjectType.parse bytes.object_type (Chamber.parse bytes.chamber) =
        .ok ot →
      parseNumber bytes.number = .error e →
      buildCitation cc bytes = .error e) ∧
    (∀ (cc : Nat) (bytes : CiteBytes) (cg : Congress) (ot : CongObjectType)
      (n : Nat) (e : Error),
      Congress.parse cc bytes.congress = .ok cg →
      CongObjectType.parse bytes.object_type (Chamber.parse bytes.chamber) =
        .ok ot →
      parseNumber bytes.number = .ok n →
      parseVer bytes.ver = .error e →
      buildCitation cc bytes = .error e) ∧
    (∀ cc : Nat, cc < 9999 →
      Citation.parse cc (asciiBytes "9999sr1") = .error .InvalidCongress) := by
  refine ⟨?_, ?_, ?_, ?_, ?_⟩
  · intro cc bytes e h
    exact build_congress_error h
  · intro cc bytes cg e h1 h2
    exact build_object_type_error h1 h2
  · intro cc bytes cg ot e h1 h2 h3
    exact build_number_error h1 h2 h3
  · intro cc bytes cg ot n e h1 h2 h3 h4
    exact build_ver_error h1 h2 h3 h4
  · intro cc h
    show buildCitation cc (tokenize (asciiBytes "9999sr1")) = _
    have ht : tokenize (asciiBytes "9999sr1") =
        ⟨[57, 57, 57, 57], 115, [114], [49], none⟩ := by decide
    rw [ht]
    apply build_congress_error
    rw [congress_parse_of_ok (v := 9999) (by decide) (by decide),
      if_neg (by omega)]

/-- Witness for C8: one concrete token record per failing step, plus the
double-violation example at current congress 119. -/
theorem fail_fast_sequential_witness :
    buildCitation 0 ⟨[49], 104, [114], [49], none⟩ = .error .InvalidCongress ∧
    buildCitation 119 ⟨[49], 104, [120], [49], none⟩ =
      .error .UnknownCongObjectType ∧
    buildCitation 119 ⟨[49], 104, [114], [], none⟩ = .error .ParseInt ∧
    buildCitation 119 ⟨[49], 104, [114], [49], some [120]⟩ =
      .error .InvalidBillVersion ∧
    Citation.parse 119 (asciiBytes "9999sr1") = .error .InvalidCongress :=
  ⟨fail_fast_sequential.1 0 _ _ (by decide),
   fail_fast_sequential.2.1 119 _ ⟨1⟩ _ (by decide) (by decide),
   fail_fast_sequential.2.2.1 119 _ ⟨1⟩ .HouseBill _ (by decide) (by decide)
     (by decide),
   fail_fast_sequential.2.2.2.1 119 _ ⟨1⟩ .HouseBill 1 _ (by decide)
     (by decide) (by decide) (by decide),
   fail_fast_sequential.2.2.2.2 119 (by norm_num)⟩

/-- Claim C9: version presence is not gated on the object type being a
bill: `parse("118hrpt529rh")` succeeds as a HouseReport carrying version
`"rh"`, and for any token record whose trailing tag is in the vocabulary
the build result is exactly the build without the tag with the version
field filled in — independent of the object type. -/
theorem version_not_gated_on_object_type :
    (∀ cc : Nat, 118 ≤ cc →
      Citation.parse cc (asciiBytes "118hrpt529rh") =
        .ok ⟨⟨118⟩, .House, .HouseReport, 529, some ⟨"rh"⟩⟩) ∧
    (∀ (cc : Nat) (bytes : CiteBytes) (v : List Nat), v ∈ BILL_VERSIONS →
      buildCitation cc { bytes with ver := some v } =
        (buildCitation cc { bytes with ver := none }).map
          (fun c => { c with ver := some ⟨mkStr v⟩ })) := by
  constructor
  · intro cc h
    show buildCitation cc (tokenize (asciiBytes "118hrpt529rh")) = _
    have ht : tokenize (asciiBytes "118hrpt529rh") =
        ⟨[49, 49, 56], 104, [114, 112, 116], [53, 50, 57], some [114, 104]⟩ := by
      decide
    rw [ht]
    have h1 : Congress.parse cc [49, 49, 56] = .ok ⟨118⟩ := by
      rw [congress_parse_of_ok (v := 118) (by decide) (by decide), if_pos h]
    exact build_all_ok h1 (by decide) (by decide) (by decide)
  · intro cc bytes v hv
    obtain ⟨bc, bch, bot, bn, bver⟩ := bytes
    have hv' : parseVer (some v) = .ok (some ⟨mkStr v⟩) := parseVer_mem hv
    show buildCitation cc ⟨bc, bch, bot, bn, some v⟩ =
      (buildCitation cc ⟨bc, bch, bot, bn, none⟩).map
        (fun c => { c with ver := some ⟨mkStr v⟩ })
    unfold buildCitation
    dsimp only
    cases Congress.parse cc bc with
    | error e => rfl
    | ok cg =>
      cases CongObjectType.parse bot (Chamber.parse bch) with
      | error e => rfl
      | ok ot =>
        cases parseNumber bn with
        | error e => rfl
        | ok n =>
          rw [hv']
          rfl

/-- Witness for C9 at current congress 119 and a Senate-bill token record
carrying the tag `"enr"`. -/
theorem version_not_gated_on_object_type_witness :
    Citation.parse 119 (asciiBytes "118hrpt529rh") =
      .ok ⟨⟨118⟩, .House, .HouseReport, 529, some ⟨"rh"⟩⟩ ∧
    buildCitation 119 ⟨[49], 115, [], [49], some (asciiBytes "enr")⟩ =
      (buildCitation 119 ⟨[49], 115, [], [49], none⟩).map
        (fun c => { c with ver := some ⟨mkStr (asciiBytes "enr")⟩ }) :=
  ⟨version_not_gated_on_object_type.1 119 (by norm_num),
   version_not_gated_on_object_type.2 119 ⟨[49], 115, [], [49], none⟩
     (asciiBytes "enr") (by decide)⟩

/-- Claim C10: every chamber byte other than `'h'`/`'H'` — including the
0 byte used when no chamber letter is present — converts to Senate and
never fails; hence `"118conres9"`, which has no chamber letter, parses as
a Senate concurrent resolution. -/
theorem chamber_default_senate :
    (∀ b : Nat, b ≠ 104 → b ≠ 72 → Chamber.parse b = .Senate) ∧
    Chamber.parse 0 = .Senate ∧
    (∀ cc : Nat, 118 ≤ cc →
      Citation.parse cc (asciiBytes "118conres9") =
        .ok ⟨⟨118⟩, .Senate, .SenateConcurrentResolution, 9, none⟩) := by
  refine ⟨?_, by decide, ?_⟩
  · intro b h1 h2
    have hne : ¬(byteToLower b = byteToLower 104) := by
      unfold byteToLower
      split_ifs <;> omega
    unfold Chamber.parse
    rw [if_neg hne]
  · intro cc h
    show buildCitation cc (tokenize (asciiBytes "118conres9")) = _
    have ht : tokenize (asciiBytes "118conres9") =
        ⟨[49, 49, 56], 0, [99, 111, 110, 114, 101, 115], [57], none⟩ := by
      decide
    rw [ht]
    have h1 : Congress.parse cc [49, 49, 56] = .ok ⟨118⟩ := by
      rw [congress_parse_of_ok (v := 118) (by decide) (by decide), if_pos h]
    exact build_all_ok h1 (by decide) (by decide) (by decide)

/-- Witness for C10 at byte 99 (letter c) and current congress 119. -/
theorem chamber_default_senate_witness :
    Chamber.parse 99 = .Senate ∧
    Citation.parse 119 (asciiBytes "118conres9") =
      .ok ⟨⟨118⟩, .Senate, .SenateConcurrentResolution, 9, none⟩ :=
  ⟨chamber_default_senate.1 99 (by norm_num) (by norm_num),
   chamber_default_senate.2.2 119 (by norm_num)⟩

/-- The last character of the decimal rendering of `n` is the digit
character of `n % 10`. -/
theorem getLast?_natStr_data (n : Nat) :
    (natStr n).data.getLast? = some (Char.ofNat (48 + n % 10)) := by
  show ((reprBytes n).map Char.ofNat).getLast? = _
  rw [List.getLast?_map, getLast?_reprBytes]
  rfl

/-- Rust's `ends_with(char)` on a decimal rendering tests the character
of the last digit. -/
theorem endsWith_digit_char (n : Nat) (c : Char) :
    strEndsWithChar (natStr n) c =
      decide (Char.ofNat (48 + n % 10) = c) := by
  unfold strEndsWithChar
  rw [getLast?_natStr_data]
  by_cases h : Char.ofNat (48 + n % 10) = c
  · simp [h]
  · simp [h]

/-- Claim C7: the ordinal congress string appends a suffix chosen solely
by the last digit of the number (1 gives st, 2 gives nd, 3 gives rd,
anything else th) with no special-casing of 11/12/13; congress 113
renders as 113rd and 118 as 118th. -/
theorem ordinal_last_digit :
    (∀ n : Nat, Congress.as_ordinal ⟨n⟩ = natStr n ++ ordinalSuffix (n % 10)) ∧
    Congress.as_ordinal ⟨113⟩ = "113rd" ∧
    Congress.as_ordinal ⟨118⟩ = "118th" := by
  refine ⟨?_, by decide, by decide⟩
  intro n
  have h10 : n % 10 < 10 := Nat.mod_lt _ (by norm_num)
  simp only [Congress.as_ordinal, endsWith_digit_char]
  generalize hd : n % 10 = d at *
  interval_cases d <;>
    repeat first
      | rw [if_pos (by decide)]
      | rw [if_neg (by decide)]
      | rfl
